import Mathlib

/-!
Verification development for the webstudio settings-panel variables module
(`apps/builder/app/builder/features/settings-panel/variables.tsx`).

The definitions below shallowly embed the data model and the operations of
that module.  Code that lives in the module itself is translated directly
from the source.  Collaborator code that the module imports but that is not
part of the sources under verification (the restricted-expression validator,
the JavaScript `eval` used for literal values, the data-source identifier
codec and the transactional store) is modelled from the specification; every
such definition carries a doc comment starting with `Modelled from the spec`.
-/

set_option autoImplicit false

namespace Webstudio

/-- Modelled from the spec: a JavaScript runtime value as produced by
evaluating a restricted literal expression — string, number, boolean, null,
object (structured data), array, or the `undefined` no-op result. -/
inductive JsValue where
  | str (s : String)
  | num (n : Int)
  | boolean (b : Bool)
  | null
  | obj (fields : List (String × JsValue))
  | arr (elems : List JsValue)
  | undef
deriving Repr

/-- Modelled from the spec: tokens of the restricted expression grammar. -/
inductive Token where
  | num (n : Int)
  | str (s : String)
  | ident (s : String)
  | lbrace
  | rbrace
  | lparen
  | rparen
  | lbracket
  | rbracket
  | comma
  | colon
  | op (s : String)
deriving Repr, DecidableEq

/-- Digits of a decimal numeral to the natural number they denote. -/
def digitsToNat (l : List Char) : Nat :=
  l.foldl (fun n c => n * 10 + (c.toNat - '0'.toNat)) 0

/-- First character allowed in an identifier: letter, `_` or `$`. -/
def isIdentStart (c : Char) : Bool :=
  c.isAlpha || c = '_' || c = '$'

/-- Subsequent identifier character: letter, digit, `_` or `$`. -/
def isIdentChar (c : Char) : Bool :=
  c.isAlpha || c.isDigit || c = '_' || c = '$'

/-- Modelled from the spec: fuel-indexed tokenizer for the restricted
expression grammar (numbers, double-quoted strings, identifiers,
punctuation and the arithmetic operators). -/
def tokenizeFuel : Nat → List Char → Except String (List Token)
  | 0, _ => .error "Parse Error: tokenizer ran out of fuel"
  | _, [] => .ok []
  | fuel + 1, c :: cs =>
    if c = ' ' || c = '\n' || c = '\t' || c = '\r' then
      tokenizeFuel fuel cs
    else if c.isDigit then
      let ds := (c :: cs).takeWhile Char.isDigit
      let rest := (c :: cs).dropWhile Char.isDigit
      match tokenizeFuel fuel rest with
      | .ok toks => .ok (.num (Int.ofNat (digitsToNat ds)) :: toks)
      | .error e => .error e
    else if c = '"' then
      let body := cs.takeWhile (fun d => !(d = '"'))
      match cs.dropWhile (fun d => !(d = '"')) with
      | '"' :: rest =>
        match tokenizeFuel fuel rest with
        | .ok toks => .ok (.str (String.mk body) :: toks)
        | .error e => .error e
      | _ => .error "Parse Error: unterminated string"
    else if isIdentStart c then
      let body := (c :: cs).takeWhile isIdentChar
      let rest := (c :: cs).dropWhile isIdentChar
      match tokenizeFuel fuel rest with
      | .ok toks => .ok (.ident (String.mk body) :: toks)
      | .error e => .error e
    else
      let tok : Except String Token :=
        if c = '{' then .ok .lbrace
        else if c = '}' then .ok .rbrace
        else if c = '(' then .ok .lparen
        else if c = ')' then .ok .rparen
        else if c = '[' then .ok .lbracket
        else if c = ']' then .ok .rbracket
        else if c = ',' then .ok .comma
        else if c = ':' then .ok .colon
        else if c = '+' || c = '-' || c = '*' then .ok (.op (String.mk [c]))
        else .error "Parse Error: unexpected character"
      match tok with
      | .error e => .error e
      | .ok t =>
        match tokenizeFuel fuel cs with
        | .ok toks => .ok (t :: toks)
        | .error e => .error e

/-- Modelled from the spec: tokenize a whole code string. -/
def tokenize (code : String) : Except String (List Token) :=
  tokenizeFuel (code.length + 1) code.toList

/-- Modelled from the spec: abstract syntax of the restricted expression
grammar — literals, structured-data construction, binary operators,
bare identifier references, and the whitelisted effect-call form that is
legal only in `action`-kind props. -/
inductive Expr where
  | numLit (n : Int)
  | strLit (s : String)
  | boolLit (b : Bool)
  | nullLit
  | identRef (name : String)
  | binary (operator : String) (lhs rhs : Expr)
  | objectLit (fields : List (String × Expr))
  | arrayLit (elems : List Expr)
  | callEffect (callee : String) (args : List Expr)
deriving Repr

mutual

/-- Modelled from the spec: fuel-indexed recursive-descent parser for a
full expression (a primary expression followed by binary operators). -/
def parseExprFuel : Nat → List Token → Except String (Expr × List Token)
  | 0, _ => .error "Parse Error: parser ran out of fuel"
  | fuel + 1, toks =>
    match parsePrimaryFuel fuel toks with
    | .error e => .error e
    | .ok (lhs, rest) => parseBinaryFuel fuel lhs rest

/-- Modelled from the spec: parse a chain of left-associative binary
operators after a parsed left-hand side. -/
def parseBinaryFuel : Nat → Expr → List Token → Except String (Expr × List Token)
  | 0, _, _ => .error "Parse Error: parser ran out of fuel"
  | fuel + 1, lhs, toks =>
    match toks with
    | .op o :: rest =>
      match parsePrimaryFuel fuel rest with
      | .error e => .error e
      | .ok (rhs, rest1) => parseBinaryFuel fuel (.binary o lhs rhs) rest1
    | _ => .ok (lhs, toks)

/-- Modelled from the spec: parse a primary expression — literal,
identifier (possibly an effect call), parenthesized expression, object
literal or array literal.  In expression position a leading brace always
starts an object literal. -/
def parsePrimaryFuel : Nat → List Token → Except String (Expr × List Token)
  | 0, _ => .error "Parse Error: parser ran out of fuel"
  | fuel + 1, toks =>
    match toks with
    | .num n :: rest => .ok (.numLit n, rest)
    | .str s :: rest => .ok (.strLit s, rest)
    | .ident "true" :: rest => .ok (.boolLit true, rest)
    | .ident "false" :: rest => .ok (.boolLit false, rest)
    | .ident "null" :: rest => .ok (.nullLit, rest)
    | .ident name :: .lparen :: rest =>
      match parseArgsFuel fuel rest with
      | .error e => .error e
      | .ok (args, rest1) => .ok (.callEffect name args, rest1)
    | .ident name :: rest => .ok (.identRef name, rest)
    | .lparen :: rest =>
      match parseExprFuel fuel rest with
      | .error e => .error e
      | .ok (e, .rparen :: rest1) => .ok (e, rest1)
      | .ok _ => .error "Parse Error: expected closing parenthesis"
    | .lbrace :: rest =>
      match parseObjectFuel fuel rest with
      | .error e => .error e
      | .ok (fields, rest1) => .ok (.objectLit fields, rest1)
    | .lbracket :: rest =>
      match parseArrayFuel fuel rest with
      | .error e => .error e
      | .ok (elems, rest1) => .ok (.arrayLit elems, rest1)
    | _ => .error "Parse Error: unexpected token"

/-- Modelled from the spec: parse object-literal fields up to the closing
brace. -/
def parseObjectFuel : Nat → List Token → Except String (List (String × Expr) × List Token)
  | 0, _ => .error "Parse Error: parser ran out of fuel"
  | fuel + 1, toks =>
    match toks with
    | .rbrace :: rest => .ok ([], rest)
    | .ident key :: .colon :: rest =>
      match parseExprFuel fuel rest with
      | .error e => .error e
      | .ok (e, .comma :: rest1) =>
        match parseObjectFuel fuel rest1 with
        | .error e => .error e
        | .ok (fields, rest2) => .ok ((key, e) :: fields, rest2)
      | .ok (e, .rbrace :: rest1) => .ok ([(key, e)], rest1)
      | .ok _ => .error "Parse Error: expected comma or closing brace"
    | .str key :: .colon :: rest =>
      match parseExprFuel fuel rest with
      | .error e => .error e
      | .ok (e, .comma :: rest1) =>
        match parseObjectFuel fuel rest1 with
        | .error e => .error e
        | .ok (fields, rest2) => .ok ((key, e) :: fields, rest2)
      | .ok (e, .rbrace :: rest1) => .ok ([(key, e)], rest1)
      | .ok _ => .error "Parse Error: expected comma or closing brace"
    | _ => .error "Parse Error: expected object key"

/-- Modelled from the spec: parse array-literal elements up to the closing
bracket. -/
def parseArrayFuel : Nat → List Token → Except String (List Expr × List Token)
  | 0, _ => .error "Parse Error: parser ran out of fuel"
  | fuel + 1, toks =>
    match toks with
    | .rbracket :: rest => .ok ([], rest)
    | _ =>
      match parseExprFuel fuel toks with
      | .error e => .error e
      | .ok (e, .comma :: rest1) =>
        match parseArrayFuel fuel rest1 with
        | .error e => .error e
        | .ok (elems, rest2) => .ok (e :: elems, rest2)
      | .ok (e, .rbracket :: rest1) => .ok ([e], rest1)
      | .ok _ => .error "Parse Error: expected comma or closing bracket"

/-- Modelled from the spec: parse call arguments up to the closing
parenthesis. -/
def parseArgsFuel : Nat → List Token → Except String (List Expr × List Token)
  | 0, _ => .error "Parse Error: parser ran out of fuel"
  | fuel + 1, toks =>
    match toks with
    | .rparen :: rest => .ok ([], rest)
    | _ =>
      match parseExprFuel fuel toks with
      | .error e => .error e
      | .ok (e, .comma :: rest1) =>
        match parseArgsFuel fuel rest1 with
        | .error e => .error e
        | .ok (args, rest2) => .ok (e :: args, rest2)
      | .ok (e, .rparen :: rest1) => .ok ([e], rest1)
      | .ok _ => .error "Parse Error: expected comma or closing parenthesis"

end

mutual

/-- Modelled from the spec: the bare identifiers of an expression, in
encounter order, as handed to the validator's identifier callback (an
effect call hands over its callee name as well). -/
def collectIds : Expr → List String
  | .numLit _ => []
  | .strLit _ => []
  | .boolLit _ => []
  | .nullLit => []
  | .identRef name => [name]
  | .binary _ lhs rhs => collectIds lhs ++ collectIds rhs
  | .objectLit fields => collectIdsFields fields
  | .arrayLit elems => collectIdsList elems
  | .callEffect callee args => callee :: collectIdsList args

/-- Identifiers of object-literal fields, in order. -/
def collectIdsFields : List (String × Expr) → List String
  | [] => []
  | (_, e) :: rest => collectIds e ++ collectIdsFields rest

/-- Identifiers of a list of expressions, in order. -/
def collectIdsList : List Expr → List String
  | [] => []
  | e :: rest => collectIds e ++ collectIdsList rest

end

mutual

/-- Modelled from the spec: whether an expression contains the effect-call
form, which the validator rejects unless `effectful` is set. -/
def containsCall : Expr → Bool
  | .numLit _ => false
  | .strLit _ => false
  | .boolLit _ => false
  | .nullLit => false
  | .identRef _ => false
  | .binary _ lhs rhs => containsCall lhs || containsCall rhs
  | .objectLit fields => containsCallFields fields
  | .arrayLit elems => containsCallList elems
  | .callEffect _ _ => true

/-- Effect-call search over object-literal fields. -/
def containsCallFields : List (String × Expr) → Bool
  | [] => false
  | (_, e) :: rest => containsCall e || containsCallFields rest

/-- Effect-call search over a list of expressions. -/
def containsCallList : List Expr → Bool
  | [] => false
  | e :: rest => containsCall e || containsCallList rest

end

mutual

/-- Modelled from the spec: pure evaluation of a restricted expression.
An identifier reference has no runtime value at this stage and signals an
error naming the identifier; effect calls are opaque tokens and are never
evaluated. -/
def evalExpr : Expr → Except String JsValue
  | .numLit n => .ok (.num n)
  | .strLit s => .ok (.str s)
  | .boolLit b => .ok (.boolean b)
  | .nullLit => .ok .null
  | .identRef name => .error (name ++ " is not defined")
  | .binary o lhs rhs =>
    match evalExpr lhs with
    | .error e => .error e
    | .ok lv =>
      match evalExpr rhs with
      | .error e => .error e
      | .ok rv =>
        match o, lv, rv with
        | "+", .num a, .num b => .ok (.num (a + b))
        | "+", .str a, .str b => .ok (.str (a ++ b))
        | "-", .num a, .num b => .ok (.num (a - b))
        | "*", .num a, .num b => .ok (.num (a * b))
        | _, _, _ => .error "unsupported operand types"
  | .objectLit fields =>
    match evalFields fields with
    | .error e => .error e
    | .ok vs => .ok (.obj vs)
  | .arrayLit elems =>
    match evalElems elems with
    | .error e => .error e
    | .ok vs => .ok (.arr vs)
  | .callEffect _ _ => .error "effect calls cannot be evaluated"

/-- Evaluation of object-literal fields. -/
def evalFields : List (String × Expr) → Except String (List (String × JsValue))
  | [] => .ok []
  | (k, e) :: rest =>
    match evalExpr e with
    | .error msg => .error msg
    | .ok v =>
      match evalFields rest with
      | .error msg => .error msg
      | .ok vs => .ok ((k, v) :: vs)

/-- Evaluation of a list of expressions. -/
def evalElems : List Expr → Except String (List JsValue)
  | [] => .ok []
  | e :: rest =>
    match evalExpr e with
    | .error msg => .error msg
    | .ok v =>
      match evalElems rest with
      | .error msg => .error msg
      | .ok vs => .ok (v :: vs)

end

/-- Modelled from the spec: `validateExpression(code, options)`.  Parses
`code` as a single restricted expression and returns the list of bare
identifiers it references, in encounter order (the source feeds each to the
`transformIdentifier` callback).  `optional` makes an empty text valid;
`effectful` permits the whitelisted effect-call form.  Any violation is a
thrown error, modelled as `Except.error`. -/
def validateExpression (code : String) (optional effectful : Bool) :
    Except String (List String) :=
  match tokenize code with
  | .error e => .error e
  | .ok [] =>
    if optional then .ok [] else .error "Parse Error: expression expected"
  | .ok toks =>
    match parseExprFuel (toks.length + 1) toks with
    | .error e => .error e
    | .ok (e, []) =>
      if effectful = false && containsCall e then
        .error "Parse Error: call expressions are not allowed"
      else
        .ok (collectIds e)
    | .ok (_, _ :: _) => .error "Parse Error: unexpected token after expression"

/-- Modelled from the spec: JavaScript `eval` on a source string, at
statement position — a leading brace opens a block, so the text consisting
of the two brace characters evaluates to the `undefined` no-op result
rather than to an object literal. -/
def jsEval (code : String) : Except String JsValue :=
  match tokenize code with
  | .error e => .error e
  | .ok [] => .ok .undef
  | .ok (.lbrace :: rest) =>
    match rest with
    | [.rbrace] => .ok .undef
    | _ => .error "Parse Error: unexpected block"
  | .ok toks =>
    match parseExprFuel (toks.length + 1) toks with
    | .error e => .error e
    | .ok (e, []) => evalExpr e
    | .ok (_, _ :: _) => .error "Parse Error: unexpected token after expression"

/-- Modelled from the spec: the reserved marker that makes an encoded
data-source identifier distinguishable from any user-chosen name. -/
def dataSourceVariableMarker : String := "$ws$dataSource$"

/-- Modelled from the spec: `encodeDataSourceVariable(id)` — the textual
identifier standing for the variable with the given id. -/
def encodeDataSourceVariable (id : String) : String :=
  dataSourceVariableMarker ++ id

/-- Strip a marker character list from the front of a character list,
returning the remainder when the marker is a prefix. -/
def stripMarker : List Char → List Char → Option (List Char)
  | [], rest => some rest
  | _ :: _, [] => none
  | m :: ms, c :: cs => if m = c then stripMarker ms cs else none

/-- Modelled from the spec: `decodeDataSourceVariable(identifier)` — the
variable id an identifier stands for, or `none` when the identifier does
not carry the reserved marker. -/
def decodeDataSourceVariable (identifier : String) : Option String :=
  match stripMarker dataSourceVariableMarker.toList identifier.toList with
  | some rest => some (String.mk rest)
  | none => none

/-! ### Store collections

A JavaScript `Map` keyed by strings: an insertion-ordered association list
with unique keys.  `set` replaces an existing entry in place or appends,
`delete` removes the entry, `values` lists entries in insertion order. -/

/-- Insertion-ordered string-keyed map, as a JavaScript `Map`. -/
abbrev SMap (α : Type) : Type := List (String × α)

namespace SMap

/-- The value stored under a key, if any. -/
def get {α : Type} : SMap α → String → Option α
  | [], _ => none
  | (k1, v1) :: rest, k => if k1 = k then some v1 else get rest k

/-- Replace the entry under a key in place, or append a new entry. -/
def set {α : Type} : SMap α → String → α → SMap α
  | [], k, v => [(k, v)]
  | (k1, v1) :: rest, k, v =>
    if k1 = k then (k, v) :: rest else (k1, v1) :: set rest k v

/-- Remove the entry under a key. -/
def delete {α : Type} : SMap α → String → SMap α
  | [], _ => []
  | (k1, v1) :: rest, k =>
    if k1 = k then delete rest k else (k1, v1) :: delete rest k

/-- The stored values, in insertion order. -/
def values {α : Type} (m : SMap α) : List α := m.map (fun kv => kv.2)

end SMap

/-! ### Data model

Translated from the `DataSource` and `Prop` types of `@webstudio-is/sdk` as
the module uses them. -/

/-- The typed literal stored inside a value variable: the source tags it
`string`, `number`, `boolean` or `json`. -/
inductive VariableValue where
  | str (value : String)
  | num (value : Int)
  | boolean (value : Bool)
  | json (value : JsValue)
deriving Repr

/-- A data source: a value variable (discriminant `"variable"`), a resource
variable (discriminant `"resource"`) or a parameter (discriminant
`"parameter"`); each has an id, an optional owning `scopeInstanceId` and a
name. -/
inductive DataSource where
  | var (id : String) (scopeInstanceId : Option String) (name : String)
      (value : VariableValue)
  | res (id : String) (scopeInstanceId : Option String) (name : String)
      (resourceId : String)
  | param (id : String) (scopeInstanceId : Option String) (name : String)
deriving Repr

namespace DataSource

/-- The `id` field. -/
def id : DataSource → String
  | .var i _ _ _ => i
  | .res i _ _ _ => i
  | .param i _ _ => i

/-- The `scopeInstanceId` field. -/
def scopeInstanceId : DataSource → Option String
  | .var _ s _ _ => s
  | .res _ s _ _ => s
  | .param _ s _ => s

/-- The `name` field. -/
def name : DataSource → String
  | .var _ _ n _ => n
  | .res _ _ n _ => n
  | .param _ _ n => n

/-- The `type` discriminant string. -/
def ty : DataSource → String
  | .var _ _ _ _ => "variable"
  | .res _ _ _ _ => "resource"
  | .param _ _ _ => "parameter"

/-- The object spread `({ ...variable, name })`: same data source with the
name replaced. -/
def withName : DataSource → String → DataSource
  | .var i s _ v, n => .var i s n v
  | .res i s _ r, n => .res i s n r
  | .param i s _, n => .param i s n

end DataSource

/-- An externally-defined resource descriptor; the module treats it
opaquely and only deletes entries by id. -/
structure Resource where
  id : String
deriving Repr

/-- One step of an `action`-kind prop: an effectful code string. -/
structure ActionStep where
  code : String
deriving Repr

/-- The value and discriminant of a prop: a single restricted-expression
string, an ordered list of effectful steps, or any of the plain literal
kinds (collapsed — the module only distinguishes `expression` and
`action`). -/
inductive PropVal where
  | expression (code : String)
  | action (steps : List ActionStep)
  | other
deriving Repr

/-- A prop: belongs to one instance, has a name and a value. -/
structure PropRec where
  id : String
  instanceId : String
  name : String
  value : PropVal
deriving Repr

/-- An instance of the externally-owned tree: the module reads only its
`component`. -/
structure Instance where
  component : String
deriving Repr, DecidableEq

/-- Modelled from the spec: the component tag of the repeating "collection"
construct (`collectionComponent` from `@webstudio-is/react-sdk`). -/
def collectionComponent : String := "ws:collection"

/-- The state the module reads and writes: the three store collections, the
instance tree snapshot and the currently selected instance selector
(target first). -/
structure AppState where
  dataSources : SMap DataSource
  resources : SMap Resource
  props : SMap PropRec
  instances : SMap Instance
  selectedInstanceSelector : Option (List String)

/-- Modelled from the spec: `serverSyncStore.createTransaction` over one
collection — the mutator runs to completion and its result is committed
atomically. -/
def createTransaction1 {α : Type} (a : α) (mutator : α → α) : α := mutator a

/-- Modelled from the spec: `serverSyncStore.createTransaction` over two
collections — the mutator runs to completion and both results are
committed together or not at all. -/
def createTransaction2 {α β : Type} (a : α) (b : β)
    (mutator : α → β → α × β) : α × β := mutator a b

/-! ### Operations translated from the source module -/

/-- `Array.from(ids)` insertion order for a growing `Set`: append unless
already present. -/
def setAdd (l : List String) (x : String) : List String :=
  if x ∈ l then l else l ++ [x]

/-- `Array.from(ids).join(", ")`. -/
def joinCommaSpace : List String → String
  | [] => ""
  | [x] => x
  | x :: rest => x ++ ", " ++ joinCommaSpace rest

/-- The record `{ value?, error? }` returned by `parseVariableValue`. -/
structure ParseResult where
  value : Option JsValue
  error : Option String
deriving Repr

/-- Translated from `parseVariableValue` (variables.tsx lines 67–94):
validate the code collecting every referenced identifier; when the set is
empty, evaluate the code wrapped in parentheses (so a brace-shaped text is
an object, not a block); when identifiers were collected, fail with an
error naming them. -/
def parseVariableValue (code : String) : ParseResult :=
  match validateExpression code true false with
  | .error e => { value := none, error := some e }
  | .ok occurrences =>
    let ids := occurrences.foldl setAdd []
    if ids.isEmpty then
      match jsEval ("(" ++ code ++ ")") with
      | .ok v => { value := some v, error := none }
      | .error e => { value := none, error := some ("Parse Error: " ++ e) }
    else
      { value := none,
        error := some ("Cannot use variables " ++ joinCommaSpace ids ++
          " as variable value") }

/-- Translated from `renameVariable` (variables.tsx lines 96–100): a
transaction on the variables collection alone, writing the spread
`{ ...variable, name }` under the variable's id. -/
def renameVariable (v : DataSource) (name : String) (st : AppState) :
    AppState :=
  let dataSources := createTransaction1 st.dataSources (fun dataSources =>
    SMap.set dataSources v.id (v.withName name))
  { st with dataSources := dataSources }

/-- The id `saveVariable` writes under (`dataSource?.id ?? nanoid()`): the
edited data source's id, or the fresh id for a new variable. -/
def savedDataSourceId (dataSource : Option DataSource) (freshId : String) :
    String :=
  match dataSource with
  | some ds => ds.id
  | none => freshId

/-- Translated from the `variableValue` reassignment chain of
`saveVariable` (variables.tsx lines 126–138): start from a `json` tag and
replace it when the runtime value is a string, a number or a boolean. -/
def variableValueOf (value : JsValue) : VariableValue :=
  let variableValue := VariableValue.json value
  let variableValue := match value with
    | .str s => VariableValue.str s
    | _ => variableValue
  let variableValue := match value with
    | .num n => VariableValue.num n
    | _ => variableValue
  match value with
  | .boolean b => VariableValue.boolean b
  | _ => variableValue

/-- Translated from `saveVariable` (variables.tsx lines 102–150).  The
fresh id that `nanoid()` would produce is passed in as `freshId`.  Returns
the `undefined | { error? }` result (modelled as `Option String`) together
with the state after the call. -/
def saveVariable (dataSource : Option DataSource) (freshId : String)
    (name : String) (valueString : String) (st : AppState) :
    Option String × AppState :=
  let dataSourceId := savedDataSourceId dataSource freshId
  let parsed := parseVariableValue valueString
  match parsed.error with
  | some error => (some error, st)
  | none =>
    match st.selectedInstanceSelector with
    | none => (none, st)
    | some instanceSelector =>
      let instanceId := instanceSelector.head?
      let pair := createTransaction2 st.dataSources st.resources
        (fun dataSources resources =>
          let resources := match dataSource with
            | some (.res _ _ _ resourceId) => SMap.delete resources resourceId
            | _ => resources
          let value := parsed.value.getD .undef
          let variableValue := variableValueOf value
          let scope :=
            match (SMap.get dataSources dataSourceId).bind
                DataSource.scopeInstanceId with
            | some s => some s
            | none => instanceId
          (SMap.set dataSources dataSourceId
            (.var dataSourceId scope name variableValue), resources))
      (none, { st with dataSources := pair.1, resources := pair.2 })

/-- Translated from the save-button click handler of `VariableValuePanel`
(variables.tsx lines 207–223): an empty name is reported; a parameter is
renamed (and the panel closed), after which control falls through to
`saveVariable` unconditionally; a save error is reported.  Returns the
state after the click together with the surfaced error, if any. -/
def onSaveClick (v : Option DataSource) (freshId : String) (name : String)
    (valueText : String) (st : AppState) : AppState × Option String :=
  if name = "" then (st, some "Variable name is required")
  else
    let st := match v with
      | some ds => if ds.ty = "parameter" then renameVariable ds name st else st
      | none => st
    let pair := saveVariable v freshId name valueText st
    (pair.2, pair.1)

/-- Translated from the loop body of the `$selectedInstanceVariables`
computed store (variables.tsx lines 293–310): a data source is skipped
when it is a parameter declared by the target instance (the selector's
head) and that instance's component is the collection component, and is
kept when its scope instance id is defined and appears in the selector. -/
def visiblePredicate (sel : List String) (instances : SMap Instance)
    (ds : DataSource) : Bool :=
  let skip := decide (ds.ty = "parameter") &&
    decide (sel.head? = ds.scopeInstanceId) &&
    decide ((Option.map Instance.component
      (Option.bind sel.head? (SMap.get instances))) =
        some collectionComponent)
  if skip then false
  else
    match ds.scopeInstanceId with
    | some s => decide (s ∈ sel)
    | none => false

/-- Translated from the `$selectedInstanceVariables` computed store
(variables.tsx lines 286–313): with no selector nothing is visible;
otherwise the data sources of the collection that pass the visibility
predicate, in collection order. -/
def selectedInstanceVariables (instanceSelector : Option (List String))
    (dataSources : SMap DataSource) (instances : SMap Instance) :
    List DataSource :=
  match instanceSelector with
  | none => []
  | some sel =>
    (SMap.values dataSources).filter (visiblePredicate sel instances)

/-- One identifier occurrence of the dependency scan: decode it and add the
decoded id to the accumulated set (the `transformIdentifier` callback of
`$usedVariables`). -/
def addDecoded (acc : List String) (identifier : String) : List String :=
  match decodeDataSourceVariable identifier with
  | some id => setAdd acc id
  | none => acc

/-- Scan one code string of the dependency scan: validate it with the given
`effectful` flag, adding every decoded identifier; a thrown parse error is
caught and contributes nothing. -/
def scanCode (effectful : Bool) (acc : List String) (code : String) :
    List String :=
  match validateExpression code false effectful with
  | .ok occurrences => occurrences.foldl addDecoded acc
  | .error _ => acc

/-- Scan one prop of the dependency scan (the loop body of
`$usedVariables`): an `expression` prop's text is validated, an `action`
prop's steps are each validated with `effectful = true`. -/
def scanProp (acc : List String) (p : PropRec) : List String :=
  let acc := match p.value with
    | .expression code => scanCode false acc code
    | _ => acc
  match p.value with
  | .action steps => steps.foldl (fun acc step => scanCode true acc step.code) acc
  | _ => acc

/-- Translated from the `$usedVariables` computed store (variables.tsx
lines 338–376): the set of variable ids referenced by any prop of the
current snapshot. -/
def usedVariables (props : SMap PropRec) : List String :=
  (SMap.values props).foldl scanProp []

/-- Translated from the `deletable` prop computed in `ListPanel`
(variables.tsx lines 542–545): only an unreferenced value variable may be
deleted. -/
def deletable (v : DataSource) (used : List String) : Bool :=
  decide (v.ty = "variable") && (used.contains v.id = false)

/-- Translated from `deleteVariable` (variables.tsx lines 378–382): a
transaction on the variables collection alone, deleting the entry. -/
def deleteVariable (v : DataSource) (st : AppState) : AppState :=
  let dataSources := createTransaction1 st.dataSources (fun dataSources =>
    SMap.delete dataSources v.id)
  { st with dataSources := dataSources }

/-- The delete button of `ListItem` as wired in `ListPanel`: disabled
unless `deletable`, so clicking performs `deleteVariable` exactly when the
guard passes and is a refused no-op otherwise. -/
def attemptDeleteVariable (v : DataSource) (st : AppState) : AppState :=
  if deletable v (usedVariables st.props) then deleteVariable v st else st

/-! ### Spec-side definitions

Stated from the specification's words, to be compared with the translated
code above. -/

/-- Stated from the spec's words: the stored value is tagged by the runtime
type of the evaluated literal — string, number and boolean each by their
own tag and anything else as a structured `json` value. -/
def tagVariableValue : JsValue → VariableValue
  | .str s => .str s
  | .num n => .num n
  | .boolean b => .boolean b
  | v => .json v

/-- Stated from the spec's words: the variable ids decoded from the
identifiers collected by validating one code string, or none when the text
fails to parse. -/
def codeRefIds (effectful : Bool) (code : String) : List String :=
  match validateExpression code false effectful with
  | .ok occurrences => occurrences.filterMap decodeDataSourceVariable
  | .error _ => []

/-- Stated from the spec's words: the variable ids one prop contributes to
the currently-referenced set — its text for an `expression` prop, each
step's text (validated with `effectful = true`) for an `action` prop. -/
def propReferencedIds (p : PropRec) : List String :=
  match p.value with
  | .expression code => codeRefIds false code
  | .action steps => steps.flatMap (fun step => codeRefIds true step.code)
  | .other => []

/-! ### Concrete fixtures used by witnesses and counterexamples -/

/-- A resource-kind variable. -/
def resVar : DataSource := .res "r1" (some "i1") "myResource" "res1"

/-- A value-kind variable. -/
def valVar : DataSource := .var "v1" (some "i1") "count" (.num 0)

/-- A parameter-kind variable. -/
def paramVar : DataSource := .param "p1" (some "i1") "item"

/-- A value-kind variable with no owning scope instance. -/
def orphanVar : DataSource := .var "o1" none "orphan" (.num 1)

/-- A prop whose expression references the encoded id of `resVar`. -/
def resRefProp : PropRec :=
  { id := "pr1", instanceId := "i1", name := "data",
    value := .expression "$ws$dataSource$r1" }

/-- A prop whose expression references the encoded id of `valVar`. -/
def valRefProp : PropRec :=
  { id := "pv1", instanceId := "i1", name := "data",
    value := .expression "$ws$dataSource$v1" }

/-- A state in which `resVar` exists and is referenced by a prop. -/
def stResRef : AppState :=
  { dataSources := [("r1", resVar)], resources := [("res1", { id := "res1" })],
    props := [("pr1", resRefProp)], instances := [],
    selectedInstanceSelector := some ["i1"] }

/-- The same state after the referencing prop has been removed. -/
def stResNoRef : AppState := { stResRef with props := [] }

/-- A state in which `valVar` exists and is referenced by a prop. -/
def stValRef : AppState :=
  { dataSources := [("v1", valVar)], resources := [], props := [("pv1", valRefProp)],
    instances := [], selectedInstanceSelector := some ["i1"] }

/-- The same state after the referencing prop has been removed. -/
def stValNoRef : AppState := { stValRef with props := [] }

/-- A state with no instance selected. -/
def stNoSelection : AppState :=
  { dataSources := [("v1", valVar)], resources := [], props := [],
    instances := [], selectedInstanceSelector := none }

/-- A state in which a parameter is declared on a selected instance. -/
def stParam : AppState :=
  { dataSources := [("p1", paramVar)], resources := [], props := [],
    instances := [], selectedInstanceSelector := some ["i1"] }

/-! ### Map lemmas -/

theorem SMap.get_set_self {α : Type} (m : SMap α) (k : String) (v : α) :
    SMap.get (SMap.set m k v) k = some v := by
  induction m with
  | nil => simp [SMap.set, SMap.get]
  | cons kv rest ih =>
    obtain ⟨k1, v1⟩ := kv
    by_cases h : k1 = k <;> simp [SMap.set, SMap.get, h, ih]

theorem SMap.get_delete_self {α : Type} (m : SMap α) (k : String) :
    SMap.get (SMap.delete m k) k = none := by
  induction m with
  | nil => simp [SMap.delete, SMap.get]
  | cons kv rest ih =>
    obtain ⟨k1, v1⟩ := kv
    by_cases h : k1 = k <;> simp [SMap.delete, SMap.get, h, ih]

/-! ### Set-accumulation lemmas -/

theorem mem_setAdd (l : List String) (x y : String) :
    y ∈ setAdd l x ↔ y ∈ l ∨ y = x := by
  unfold setAdd
  by_cases h : x ∈ l
  · simp only [if_pos h]
    constructor
    · exact Or.inl
    · rintro (hy | rfl)
      · exact hy
      · exact h
  · simp [if_neg h]

theorem mem_foldl_setAdd (l acc : List String) (x : String) :
    x ∈ l.foldl setAdd acc ↔ x ∈ acc ∨ x ∈ l := by
  induction l generalizing acc with
  | nil => simp
  | cons a rest ih =>
    simp only [List.foldl_cons, ih, mem_setAdd, List.mem_cons]
    tauto

theorem foldl_setAdd_ne_nil (l : List String) (h : l ≠ []) :
    l.foldl setAdd [] ≠ [] := by
  match l, h with
  | a :: rest, _ =>
    intro hnil
    have : a ∈ (a :: rest).foldl setAdd [] :=
      (mem_foldl_setAdd _ _ _).mpr (Or.inr (List.mem_cons_self a rest))
    rw [hnil] at this
    exact absurd this (List.not_mem_nil a)

/-! ### Claim theorems -/

/-- C8: the value-variable text consisting of an open and a close brace is
accepted and evaluates to an empty structured-data (object) literal; the
unwrapped text would instead be an empty block evaluating to the
`undefined` no-op result, which the parenthesis wrapping in
`parseVariableValue` avoids. -/
theorem parseVariableValue_empty_object_literal :
    parseVariableValue "\x7b\x7d" =
      { value := some (.obj []), error := none }
    ∧ jsEval "\x7b\x7d" = .ok .undef := by
  exact ⟨rfl, rfl⟩

/-- C9: a variable whose `scopeInstanceId` is undefined is never contained
in the visible-variables set, regardless of the selector. -/
theorem selectedInstanceVariables_undefined_scope_excluded
    (sel : Option (List String)) (dataSources : SMap DataSource)
    (instances : SMap Instance) (v : DataSource)
    (h : v.scopeInstanceId = none) :
    v ∉ selectedInstanceVariables sel dataSources instances := by
  intro hmem
  cases sel with
  | none =>
    rw [selectedInstanceVariables] at hmem
    exact absurd hmem (List.not_mem_nil v)
  | some s =>
    rw [selectedInstanceVariables] at hmem
    simp only [List.mem_filter] at hmem
    have hpred := hmem.2
    unfold visiblePredicate at hpred
    rw [h] at hpred
    split at hpred <;> simp_all

/-- Witness for C9 at a concrete input: the orphan variable is in the
collection yet not visible from the selector. -/
theorem selectedInstanceVariables_undefined_scope_excluded_witness :
    DataSource.scopeInstanceId orphanVar = none
    ∧ orphanVar ∉ selectedInstanceVariables (some ["i1", "o1"])
        [("o1", orphanVar)] [] :=
  ⟨rfl, selectedInstanceVariables_undefined_scope_excluded _ _ _ _ rfl⟩

/-- C10: when the save's value text parses, a save with no instance
selected returns `undefined` and leaves the state unchanged, and the
result of any save (including a committed one) is also `undefined` — so
the caller cannot distinguish the silent no-op from a committed save. -/
theorem saveVariable_no_selection_silent_noop (ds : Option DataSource)
    (freshId name code : String)
    (hparse : (parseVariableValue code).error = none) :
    ∀ st : AppState,
      (st.selectedInstanceSelector = none →
        saveVariable ds freshId name code st = (none, st))
      ∧ (saveVariable ds freshId name code st).1 = none := by
  intro st
  constructor
  · intro hsel
    simp [saveVariable, hparse, hsel]
  · cases hsel : st.selectedInstanceSelector <;>
      simp [saveVariable, hparse, hsel]

/-- Witness for C10 at a concrete input: with no selection the save of the
text `0` returns `undefined` and changes nothing. -/
theorem saveVariable_no_selection_silent_noop_witness :
    saveVariable (some valVar) "f1" "count" "0" stNoSelection =
      (none, stNoSelection) :=
  (saveVariable_no_selection_silent_noop (some valVar) "f1" "count" "0" rfl
    stNoSelection).1 rfl

/-- The reassignment chain of the source computes exactly the runtime-type
tag the spec describes. -/
theorem variableValueOf_eq_tag (v : JsValue) :
    variableValueOf v = tagVariableValue v := by
  cases v <;> rfl

/-- C7: when saving a value variable succeeds (the text parses to a runtime
value and an instance is selected), the entry written to the variables
collection stores that value tagged by its runtime type — string, number
and boolean each by their own tag, anything else as a structured `json`
value. -/
theorem saveVariable_value_tagged_by_runtime_type
    (ds : Option DataSource) (freshId name code : String) (v : JsValue)
    (st : AppState) (sel : List String)
    (hparse : parseVariableValue code = { value := some v, error := none })
    (hsel : st.selectedInstanceSelector = some sel) :
    ∃ scope,
      SMap.get (saveVariable ds freshId name code st).2.dataSources
          (savedDataSourceId ds freshId)
        = some (.var (savedDataSourceId ds freshId) scope name
            (tagVariableValue v)) := by
  simp only [saveVariable, hparse, hsel, createTransaction2, Option.getD_some,
    variableValueOf_eq_tag]
  exact ⟨_, SMap.get_set_self _ _ _⟩

/-- Witness for C7 at a concrete input: saving the text `0` stores the
numeric literal `0`. -/
theorem saveVariable_value_tagged_by_runtime_type_witness :
    tagVariableValue (.num 0) = .num 0
    ∧ ∃ scope,
        SMap.get (saveVariable (some valVar) "f1" "count" "0" stParam).2.dataSources
            (savedDataSourceId (some valVar) "f1")
          = some (.var (savedDataSourceId (some valVar) "f1") scope "count"
              (tagVariableValue (.num 0))) :=
  ⟨rfl, saveVariable_value_tagged_by_runtime_type (some valVar) "f1" "count" "0"
    (.num 0) stParam ["i1"] rfl rfl⟩

/-- C3: converting a resource variable to a value variable is atomic — when
the transaction runs (text parses, an instance is selected) the resulting
state simultaneously has the old resource entry deleted and the new value
entry written, and when the operation stops early (parse error or no
selection) the state is exactly the one before the attempt, so no state
exists where both entries linger or neither exists. -/
theorem saveVariable_resource_conversion_atomic
    (id : String) (scope : Option String) (nm rid freshId name code : String)
    (st : AppState) :
    ((((parseVariableValue code).error ≠ none) ∨
        st.selectedInstanceSelector = none) →
      (saveVariable (some (.res id scope nm rid)) freshId name code st).2 = st)
    ∧ ((parseVariableValue code).error = none →
        ∀ sel, st.selectedInstanceSelector = some sel →
          SMap.get (saveVariable (some (.res id scope nm rid)) freshId name
              code st).2.resources rid = none
          ∧ ∃ sc vv,
              SMap.get (saveVariable (some (.res id scope nm rid)) freshId name
                  code st).2.dataSources id = some (.var id sc name vv)) := by
  constructor
  · intro h
    cases herr : (parseVariableValue code).error with
    | some e => simp [saveVariable, herr]
    | none =>
      rcases h with h | h
      · exact absurd herr h
      · simp [saveVariable, herr, h]
  · intro hparse sel hsel
    constructor
    · simp only [saveVariable, hparse, hsel, createTransaction2]
      exact SMap.get_delete_self st.resources rid
    · simp only [saveVariable, hparse, hsel, createTransaction2]
      exact ⟨_, _, SMap.get_set_self st.dataSources id _⟩

/-- Witness for C3 at a concrete input: converting the referenced resource
variable with the text `1` deletes the resource entry and writes the value
entry in the committed state. -/
theorem saveVariable_resource_conversion_atomic_witness :
    SMap.get (saveVariable (some (.res "r1" (some "i1") "myResource" "res1"))
        "f1" "conv" "1" stResRef).2.resources "res1" = none
    ∧ ∃ sc vv,
        SMap.get (saveVariable (some (.res "r1" (some "i1") "myResource" "res1"))
            "f1" "conv" "1" stResRef).2.dataSources "r1"
          = some (.var "r1" sc "conv" vv) :=
  (saveVariable_resource_conversion_atomic "r1" (some "i1") "myResource"
    "res1" "f1" "conv" "1" stResRef).2 rfl ["i1"] rfl

/-- C4: a value-variable text whose validation collects at least one
identifier fails with an error naming every offending identifier, produces
no value, and the surrounding save returns that error while mutating no
collection. -/
theorem parseVariableValue_rejects_identifier_references
    (code : String) (occurrences : List String)
    (hval : validateExpression code true false = .ok occurrences)
    (hne : occurrences ≠ []) :
    (parseVariableValue code =
      { value := none,
        error := some ("Cannot use variables " ++
          joinCommaSpace (occurrences.foldl setAdd []) ++
          " as variable value") })
    ∧ (∀ i ∈ occurrences, i ∈ occurrences.foldl setAdd [])
    ∧ (∀ (ds : Option DataSource) (freshId name : String) (st : AppState),
        saveVariable ds freshId name code st =
          (some ("Cannot use variables " ++
            joinCommaSpace (occurrences.foldl setAdd []) ++
            " as variable value"), st)) := by
  have hids : (occurrences.foldl setAdd []).isEmpty = false := by
    cases hfold : occurrences.foldl setAdd [] with
    | nil => exact absurd hfold (foldl_setAdd_ne_nil occurrences hne)
    | cons a rest => rfl
  have h1 : parseVariableValue code =
      { value := none,
        error := some ("Cannot use variables " ++
          joinCommaSpace (occurrences.foldl setAdd []) ++
          " as variable value") } := by
    simp [parseVariableValue, hval, hids]
  refine ⟨h1, ?_, ?_⟩
  · intro i hi
    exact (mem_foldl_setAdd occurrences [] i).mpr (Or.inr hi)
  · intro ds freshId name st
    simp [saveVariable, h1]

/-- Witness for C4 at a concrete input: evaluating `a + 1` as a value
literal fails with an error naming `a`, and the save changes nothing. -/
theorem parseVariableValue_rejects_identifier_references_witness :
    parseVariableValue "a + 1" =
      { value := none,
        error := some "Cannot use variables a as variable value" }
    ∧ saveVariable none "f1" "num" "a + 1" stParam =
        (some "Cannot use variables a as variable value", stParam) := by
  have h := parseVariableValue_rejects_identifier_references "a + 1" ["a"]
    rfl (by simp)
  exact ⟨h.1, h.2.2 none "f1" "num" stParam⟩

/-- C6 (code bug evidence): clicking Save while editing a parameter-kind
variable does not merely rename it — the handler falls through to
`saveVariable`, which overwrites the parameter as a value-kind variable
(discriminant `"variable"`) holding the parsed editor text. -/
theorem parameter_save_converts_kind :
    DataSource.ty paramVar = "parameter"
    ∧ SMap.get (onSaveClick (some paramVar) "fresh1" "item2" "\"\""
          stParam).1.dataSources "p1"
        = some (.var "p1" (some "i1") "item2" (.str "")) := by
  exact ⟨rfl, rfl⟩

/-- The visibility predicate holds exactly when the data source's scope
instance id appears in the selector and the parameter-on-collection
exception does not apply. -/
theorem visiblePredicate_eq_true_iff (sel : List String)
    (instances : SMap Instance) (ds : DataSource) :
    visiblePredicate sel instances ds = true ↔
      ∃ s, ds.scopeInstanceId = some s ∧ s ∈ sel ∧
        ¬(ds.ty = "parameter" ∧ sel.head? = some s ∧
          Option.map Instance.component (SMap.get instances s) =
            some collectionComponent) := by
  unfold visiblePredicate
  cases hscope : ds.scopeInstanceId with
  | none =>
    simp only [hscope]
    constructor
    · intro hpred
      split at hpred <;> simp at hpred
    · rintro ⟨s, hs, -⟩
      exact absurd hs (by simp)
  | some s =>
    by_cases h1 : ds.ty = "parameter"
    · by_cases h2 : sel.head? = some s
      · by_cases h3 : Option.map Instance.component (SMap.get instances s) =
            some collectionComponent
        · simp [hscope, h1, h2, h3]
          intro _
          exact (Option.map_eq_some'.mp h3).imp (fun x hx => ⟨hx.1, hx.2⟩)
        · simp [hscope, h1, h2, h3]
          intro _ x hx hc
          exact h3 (by rw [hx]; simp [hc])
      · simp [hscope, h1, h2]
    · simp [hscope, h1]

/-- C2: for every selector (target first) and variable collection, the
visible-variables list contains exactly the stored variables whose
`scopeInstanceId` appears anywhere in the selector, except that a
parameter-kind variable scoped to the target instance is excluded when the
target instance's component is the collection component. -/
theorem selectedInstanceVariables_visibility (sel : List String)
    (dataSources : SMap DataSource) (instances : SMap Instance)
    (v : DataSource) :
    v ∈ selectedInstanceVariables (some sel) dataSources instances ↔
      v ∈ SMap.values dataSources ∧ ∃ s, v.scopeInstanceId = some s ∧
        s ∈ sel ∧
        ¬(v.ty = "parameter" ∧ sel.head? = some s ∧
          Option.map Instance.component (SMap.get instances s) =
            some collectionComponent) := by
  rw [selectedInstanceVariables]
  simp only [List.mem_filter, visiblePredicate_eq_true_iff]

/-! ### Dependency-scan lemmas -/

theorem mem_addDecoded (acc : List String) (identifier x : String) :
    x ∈ addDecoded acc identifier ↔
      x ∈ acc ∨ decodeDataSourceVariable identifier = some x := by
  unfold addDecoded
  cases h : decodeDataSourceVariable identifier with
  | none => simp
  | some id =>
    rw [mem_setAdd]
    simp only [Option.some.injEq]
    exact or_congr Iff.rfl ⟨Eq.symm, Eq.symm⟩

theorem mem_foldl_addDecoded (occurrences acc : List String) (x : String) :
    x ∈ occurrences.foldl addDecoded acc ↔
      x ∈ acc ∨ x ∈ occurrences.filterMap decodeDataSourceVariable := by
  induction occurrences generalizing acc with
  | nil => simp
  | cons a rest ih =>
    rw [List.foldl_cons, ih, mem_addDecoded]
    cases h : decodeDataSourceVariable a with
    | none => simp [List.filterMap_cons, h]
    | some id =>
      simp only [List.filterMap_cons, h, List.mem_cons, Option.some.injEq]
      constructor
      · rintro ((hx | hid) | hrest)
        · exact Or.inl hx
        · exact Or.inr (Or.inl hid.symm)
        · exact Or.inr (Or.inr hrest)
      · rintro (hx | (hid | hrest))
        · exact Or.inl (Or.inl hx)
        · exact Or.inl (Or.inr hid.symm)
        · exact Or.inr hrest

theorem mem_scanCode (effectful : Bool) (acc : List String) (code x : String) :
    x ∈ scanCode effectful acc code ↔
      x ∈ acc ∨ x ∈ codeRefIds effectful code := by
  unfold scanCode codeRefIds
  cases h : validateExpression code false effectful with
  | error e => simp [h]
  | ok occurrences => simp [h, mem_foldl_addDecoded]

theorem mem_foldl_scanSteps (steps : List ActionStep) (acc : List String)
    (x : String) :
    x ∈ steps.foldl (fun acc step => scanCode true acc step.code) acc ↔
      x ∈ acc ∨ x ∈ steps.flatMap (fun step => codeRefIds true step.code) := by
  induction steps generalizing acc with
  | nil => simp
  | cons s rest ih =>
    rw [List.foldl_cons, ih, mem_scanCode]
    simp only [List.flatMap_cons, List.mem_append]
    tauto

theorem mem_scanProp (acc : List String) (p : PropRec) (x : String) :
    x ∈ scanProp acc p ↔ x ∈ acc ∨ x ∈ propReferencedIds p := by
  unfold scanProp propReferencedIds
  cases hv : p.value with
  | expression code => simp [mem_scanCode]
  | action steps => simp [mem_foldl_scanSteps]
  | other => simp

theorem mem_foldl_scanProp (ps : List PropRec) (acc : List String)
    (x : String) :
    x ∈ ps.foldl scanProp acc ↔
      x ∈ acc ∨ ∃ p ∈ ps, x ∈ propReferencedIds p := by
  induction ps generalizing acc with
  | nil => simp
  | cons p rest ih =>
    rw [List.foldl_cons, ih, mem_scanProp]
    simp only [List.mem_cons]
    constructor
    · rintro ((hx | hp) | ⟨q, hq, hxq⟩)
      · exact Or.inl hx
      · exact Or.inr ⟨p, Or.inl rfl, hp⟩
      · exact Or.inr ⟨q, Or.inr hq, hxq⟩
    · rintro (hx | ⟨q, (rfl | hq), hxq⟩)
      · exact Or.inl (Or.inl hx)
      · exact Or.inl (Or.inr hxq)
      · exact Or.inr ⟨q, hq, hxq⟩

/-- C5: the used-variables set contains exactly the variable ids decoded
from identifiers found by validating each `expression`-kind prop's text and
each step of each `action`-kind prop (validated with `effectful = true`),
unioned over all props of the snapshot; a prop whose text fails to parse
contributes no ids and does not abort the scan. -/
theorem usedVariables_union_spec (props : SMap PropRec) (x : String) :
    x ∈ usedVariables props ↔
      ∃ p ∈ SMap.values props, x ∈ propReferencedIds p := by
  unfold usedVariables
  rw [mem_foldl_scanProp]
  simp

/-! ### Deletion guard -/

/-- C1 counterexample: a resource-kind variable that is referenced by a
prop is refused, and after the referencing prop is removed the same delete
is still refused — the variable remains in the collection, contradicting
the claim that the delete then succeeds. -/
theorem deleteVariable_resource_refused_counterexample :
    (usedVariables stResRef.props).contains resVar.id = true
    ∧ attemptDeleteVariable resVar stResRef = stResRef
    ∧ usedVariables stResNoRef.props = []
    ∧ attemptDeleteVariable resVar stResNoRef = stResNoRef
    ∧ SMap.get stResNoRef.dataSources resVar.id = some resVar :=
  ⟨rfl, rfl, rfl, rfl, rfl⟩

/-- C1 (amended): while a variable's id is in the referenced set its delete
is a refused no-op; after the references are gone the delete succeeds for a
value-kind variable, while a resource-kind variable is refused regardless
of references. -/
theorem deleteVariable_guard (st : AppState) (v : DataSource) :
    ((usedVariables st.props).contains v.id = true →
      attemptDeleteVariable v st = st)
    ∧ (v.ty = "variable" → (usedVariables st.props).contains v.id = false →
        SMap.get (attemptDeleteVariable v st).dataSources v.id = none)
    ∧ (v.ty = "resource" → attemptDeleteVariable v st = st) := by
  refine ⟨?_, ?_, ?_⟩
  · intro h
    unfold attemptDeleteVariable deletable
    rw [h]
    simp
  · intro hty h
    unfold attemptDeleteVariable deletable
    rw [hty, h]
    simp [deleteVariable, createTransaction1, SMap.get_delete_self]
  · intro hty
    unfold attemptDeleteVariable deletable
    rw [hty]
    simp

/-- Witness for C1 at concrete inputs: the referenced value variable is
refused; once the referencing prop is removed the delete removes it. -/
theorem deleteVariable_guard_witness :
    attemptDeleteVariable valVar stValRef = stValRef
    ∧ SMap.get (attemptDeleteVariable valVar stValNoRef).dataSources "v1" =
        none :=
  ⟨(deleteVariable_guard stValRef valVar).1 rfl,
   (deleteVariable_guard stValNoRef valVar).2.1 rfl rfl⟩

end Webstudio
